import Mathlib

set_option maxHeartbeats 1000000

/-!
Shallow embedding of the crop-geometry core of wikisplice.py (quantizer,
crop clamp, centering loop, per-target capture pipeline, overlay fallback,
and the budgeted page/match scan), together with theorems settling the
specification claims about it.  Coordinates are modelled as rationals;
Python round() is round-half-to-even.
-/

namespace Wikisplice

/-- Round half to even on rationals: the semantics of the Python built-in
round() as used by the quantizer in wikisplice.py line 258. -/
def pyRound (v : ℚ) : ℤ :=
  if v - ⌊v⌋ < 1/2 then ⌊v⌋
  else if 1/2 < v - ⌊v⌋ then ⌊v⌋ + 1
  else if ⌊v⌋ % 2 = 0 then ⌊v⌋ else ⌊v⌋ + 1

/-- The quantizer q of wikisplice.py lines 257-258:
q(v) = max(1.0 / dpr, round(v * dpr) / dpr). -/
def q (dpr v : ℚ) : ℚ := max (1 / dpr) ((pyRound (v * dpr) : ℚ) / dpr)

lemma pyRound_intCast (m : ℤ) : pyRound (m : ℚ) = m := by
  unfold pyRound
  rw [Int.floor_intCast]
  norm_num

lemma pyRound_le (v : ℚ) : (pyRound v : ℚ) ≤ v + 1/2 := by
  have h1 : (⌊v⌋ : ℚ) ≤ v := Int.floor_le v
  unfold pyRound
  split_ifs with h2 h3 h4
  · linarith
  · push_cast
    linarith
  · linarith
  · push_cast
    have h5 : ¬(1/2 < v - ⌊v⌋) := h3
    linarith [not_lt.mp h5]

lemma le_pyRound (v : ℚ) : v - 1/2 ≤ (pyRound v : ℚ) := by
  have h1 : (⌊v⌋ : ℚ) ≤ v := Int.floor_le v
  have h2 : v < (⌊v⌋ : ℚ) + 1 := Int.lt_floor_add_one v
  unfold pyRound
  split_ifs with h3 h4 h5
  · linarith
  · push_cast
    linarith
  · linarith [not_lt.mp h3]
  · push_cast
    linarith

lemma q_min_le (dpr v : ℚ) : 1 / dpr ≤ q dpr v := le_max_left _ _

lemma q_le_max (dpr v : ℚ) (hd : 0 < dpr) :
    q dpr v ≤ max (1 / dpr) (v + 1 / (2 * dpr)) := by
  unfold q
  apply max_le_max le_rfl
  rw [div_le_iff hd]
  have := pyRound_le (v * dpr)
  have h : (v + 1 / (2 * dpr)) * dpr = v * dpr + 1/2 := by
    field_simp
    ring
  linarith [h ▸ le_refl ((v + 1 / (2 * dpr)) * dpr)]

lemma le_q (dpr v : ℚ) (hd : 0 < dpr) : v - 1 / (2 * dpr) ≤ q dpr v := by
  unfold q
  apply le_trans _ (le_max_right _ _)
  rw [le_div_iff hd]
  have := le_pyRound (v * dpr)
  have h : (v - 1 / (2 * dpr)) * dpr = v * dpr - 1/2 := by
    field_simp
    ring
  linarith [h ▸ le_refl ((v - 1 / (2 * dpr)) * dpr)]

lemma q_le_add (dpr v : ℚ) (hd : 0 < dpr) (hv : 0 ≤ v) : q dpr v ≤ v + 1 / dpr := by
  refine le_trans (q_le_max dpr v hd) (max_le ?_ ?_)
  · have : (0:ℚ) < 1 / dpr := by positivity
    linarith
  · have h1 : (0:ℚ) < 2 * dpr := by linarith
    have h2 : 1 / (2 * dpr) ≤ 1 / dpr := by
      rw [div_le_div_iff h1 hd]
      linarith
    linarith

lemma abs_q_sub_le (dpr v : ℚ) (hd : 0 < dpr) (hv : 0 ≤ v) :
    |q dpr v - v| ≤ 1 / dpr := by
  rw [abs_le]
  constructor
  · have h1 : (0:ℚ) < 2 * dpr := by linarith
    have h2 : 1 / (2 * dpr) ≤ 1 / dpr := by
      rw [div_le_div_iff h1 hd]
      linarith
    have := le_q dpr v hd
    linarith
  · have := q_le_add dpr v hd hv
    linarith

lemma q_eq_int_div (dpr v : ℚ) (hd : 0 < dpr) :
    q dpr v = ((max 1 (pyRound (v * dpr)) : ℤ) : ℚ) / dpr := by
  unfold q
  rw [max_div_div_right (le_of_lt hd)]
  push_cast
  rfl

lemma q_idem (dpr v : ℚ) (hd : 0 < dpr) : q dpr (q dpr v) = q dpr v := by
  rw [q_eq_int_div dpr v hd]
  set n : ℤ := max 1 (pyRound (v * dpr)) with hn
  have hmul : ((n : ℚ) / dpr) * dpr = (n : ℚ) :=
    div_mul_cancel₀ _ (ne_of_gt hd)
  unfold q
  rw [hmul, pyRound_intCast]
  have h1 : (1:ℤ) ≤ n := le_max_left _ _
  have h1q : (1:ℚ) ≤ (n : ℚ) := by exact_mod_cast h1
  apply max_eq_right
  apply div_le_div_of_nonneg_right ?_ hd.le
  exact h1q

/-- Claim C4: for every value v and scale factor s > 0 the quantizer returns
both round(v * s) / s and a value at least 1 / s.  This fails: at v = 0,
s = 3 the quantizer returns 1/3 while round(0 * 3) / 3 = 0, so the first
equation of the contract does not hold. -/
theorem quantizer_contract_cex :
    q 3 0 = 1/3 ∧ ((pyRound (0 * 3) : ℚ) / 3 = 0) ∧ (1/3 : ℚ) ≠ 0 := by
  refine ⟨?_, ?_, by norm_num⟩
  · unfold q pyRound
    norm_num
  · unfold pyRound
    norm_num

/-- Claim C4 (amended): for every v and every s > 0 the quantizer returns
v' = max(1/s, round(v * s) / s); consequently v' ≥ 1/s always holds, and
v' = round(v * s) / s holds whenever round(v * s) ≥ 1. -/
theorem quantizer_contract_amended (v s : ℚ) (hs : 0 < s) :
    q s v = max (1 / s) ((pyRound (v * s) : ℚ) / s) ∧
    1 / s ≤ q s v ∧
    (1 ≤ pyRound (v * s) → q s v = (pyRound (v * s) : ℚ) / s) := by
  refine ⟨rfl, q_min_le s v, fun h => ?_⟩
  unfold q
  apply max_eq_right
  apply div_le_div_of_nonneg_right ?_ hs.le
  exact_mod_cast h

/-- Witness for the amended claim C4 at v = 5, s = 3. -/
theorem quantizer_contract_amended_witness :
    (0:ℚ) < 3 ∧
    (q 3 5 = max (1 / 3) ((pyRound (5 * 3) : ℚ) / 3) ∧
     1 / 3 ≤ q 3 5 ∧
     (1 ≤ pyRound (5 * 3) → q 3 5 = (pyRound (5 * 3) : ℚ) / 3)) :=
  ⟨by norm_num, quantizer_contract_amended 5 3 (by norm_num)⟩

/-- Claim C5: applying the quantizer twice gives the same result as applying
it once, for every v and every s > 0. -/
theorem quantizer_idempotent (v s : ℚ) (hs : 0 < s) :
    q s (q s v) = q s v :=
  q_idem s v hs

/-- Witness for claim C5 at v = 7/3, s = 3. -/
theorem quantizer_idempotent_witness :
    (0:ℚ) < 3 ∧ q 3 (q 3 (7/3)) = q 3 (7/3) :=
  ⟨by norm_num, quantizer_idempotent (7/3) 3 (by norm_num)⟩

/-- Origin repair of clamp_crop (wikisplice.py lines 261-266): a negative
coordinate is reset to 0 and left unchanged otherwise. -/
def shiftOrigin (v : ℚ) : ℚ := if v < 0 then 0 else v

/-- Dimension repair paired with shiftOrigin: when the coordinate was
negative the dimension shrinks by the overhang (cw += x in the source). -/
def shrinkNeg (v w : ℚ) : ℚ := if v < 0 then w + v else w

/-- Right/bottom fit of clamp_crop (lines 267-270): when origin + dimension
exceeds the page bound, the dimension is cut to bound - origin. -/
def fitDim (o w bound : ℚ) : ℚ := if bound < o + w then bound - o else w

/-- clamp_crop of wikisplice.py lines 260-274: shrink-from-edge repair of a
negative origin, right/bottom fit against the page bounds, a floor of
1 / max(1, dpr) on both dimensions, and quantization of all four outputs. -/
def clamp_crop (dpr x y cw ch page_w page_h : ℚ) : ℚ × ℚ × ℚ × ℚ :=
  (q dpr (shiftOrigin x),
   q dpr (shiftOrigin y),
   q dpr (max (1 / max 1 dpr) (fitDim (shiftOrigin x) (shrinkNeg x cw) page_w)),
   q dpr (max (1 / max 1 dpr) (fitDim (shiftOrigin y) (shrinkNeg y ch) page_h)))

lemma shiftOrigin_eq_max (v : ℚ) : shiftOrigin v = max v 0 := by
  unfold shiftOrigin
  split_ifs with h
  · exact (max_eq_right h.le).symm
  · exact (max_eq_left (not_lt.mp h)).symm

lemma shiftOrigin_nonneg (v : ℚ) : 0 ≤ shiftOrigin v := by
  unfold shiftOrigin
  split_ifs with h
  · exact le_refl 0
  · exact not_lt.mp h

lemma fitDim_le (o w bound : ℚ) : fitDim o w bound ≤ bound - o := by
  unfold fitDim
  split_ifs with h
  · exact le_refl _
  · linarith [not_lt.mp h]

lemma clamp_axis (dpr x cw pageW : ℚ) (hd : 1 ≤ dpr)
    (hx : max x 0 ≤ pageW - 1 / dpr) :
    q dpr (shiftOrigin x) +
      q dpr (max (1 / max 1 dpr) (fitDim (shiftOrigin x) (shrinkNeg x cw) pageW))
      ≤ pageW + 3 / (2 * dpr) := by
  have hd0 : (0:ℚ) < dpr := lt_of_lt_of_le one_pos hd
  have hmax : max 1 dpr = dpr := max_eq_right hd
  have hx1n : 0 ≤ shiftOrigin x := shiftOrigin_nonneg x
  have hx1le : shiftOrigin x ≤ pageW - 1 / dpr := by
    rw [shiftOrigin_eq_max]
    exact hx
  have hw3le : max (1 / max 1 dpr) (fitDim (shiftOrigin x) (shrinkNeg x cw) pageW)
      ≤ pageW - shiftOrigin x := by
    rw [hmax]
    apply max_le
    · linarith
    · linarith [fitDim_le (shiftOrigin x) (shrinkNeg x cw) pageW]
  have h1 : q dpr (shiftOrigin x) ≤ shiftOrigin x + 1 / dpr :=
    q_le_add dpr (shiftOrigin x) hd0 hx1n
  have h2 : q dpr (max (1 / max 1 dpr) (fitDim (shiftOrigin x) (shrinkNeg x cw) pageW))
      ≤ max (1 / max 1 dpr) (fitDim (shiftOrigin x) (shrinkNeg x cw) pageW) + 1 / (2 * dpr) := by
    refine le_trans (q_le_max dpr _ hd0) (max_le ?_ le_rfl)
    have hge : 1 / dpr ≤ max (1 / max 1 dpr) (fitDim (shiftOrigin x) (shrinkNeg x cw) pageW) := by
      rw [hmax]
      exact le_max_left _ _
    have : (0:ℚ) ≤ 1 / (2 * dpr) := by positivity
    linarith
  have h3 : 1 / dpr + 1 / (2 * dpr) = 3 / (2 * dpr) := by
    field_simp
    ring
  linarith

/-- Claim C1: for every input rectangle and page bounds at least 1 / dpr in
each direction, the clamp output stays inside the page.  This fails: at
dpr = 3 with the exactly fitting rectangle (0, 0, 1920, 1080) on a
1920 x 1080 page the quantizer floor moves the origin to 1/3 while the
width stays 1920, so the right edge lands outside the page. -/
theorem clamp_containment_cex :
    (1/3 : ℚ) ≤ 1920 ∧ (1/3 : ℚ) ≤ 1080 ∧
    1920 <
      (clamp_crop 3 0 0 1920 1080 1920 1080).1 +
      (clamp_crop 3 0 0 1920 1080 1920 1080).2.2.1 := by
  refine ⟨by norm_num, by norm_num, ?_⟩
  norm_num [clamp_crop, shiftOrigin, shrinkNeg, fitDim, q, pyRound]

/-- Claim C1 (amended): the clamp output always has a nonnegative origin,
and when dpr ≥ 1 and the (repaired) input origin leaves at least one device
pixel of room inside the page, the output exceeds the page bounds by at
most 3 / (2 dpr), one and a half device pixels of quantization slack;
exact containment can fail by exactly that quantization. -/
theorem clamp_containment_amended (dpr x y cw ch pageW pageH : ℚ)
    (hd : 1 ≤ dpr)
    (hx : max x 0 ≤ pageW - 1 / dpr)
    (hy : max y 0 ≤ pageH - 1 / dpr) :
    0 ≤ (clamp_crop dpr x y cw ch pageW pageH).1 ∧
    0 ≤ (clamp_crop dpr x y cw ch pageW pageH).2.1 ∧
    (clamp_crop dpr x y cw ch pageW pageH).1 +
      (clamp_crop dpr x y cw ch pageW pageH).2.2.1 ≤ pageW + 3 / (2 * dpr) ∧
    (clamp_crop dpr x y cw ch pageW pageH).2.1 +
      (clamp_crop dpr x y cw ch pageW pageH).2.2.2 ≤ pageH + 3 / (2 * dpr) := by
  have hd0 : (0:ℚ) < dpr := lt_of_lt_of_le one_pos hd
  have hq : (0:ℚ) ≤ 1 / dpr := by positivity
  refine ⟨?_, ?_, ?_, ?_⟩
  · exact le_trans hq (q_min_le dpr _)
  · exact le_trans hq (q_min_le dpr _)
  · exact clamp_axis dpr x cw pageW hd hx
  · exact clamp_axis dpr y ch pageH hd hy

/-- Witness for the amended claim C1 at dpr = 3 and the rectangle
(5, 5, 100, 100) on a 1920 x 1080 page. -/
theorem clamp_containment_amended_witness :
    ((1:ℚ) ≤ 3 ∧ max (5:ℚ) 0 ≤ 1920 - 1/3 ∧ max (5:ℚ) 0 ≤ 1080 - 1/3) ∧
    (0 ≤ (clamp_crop 3 5 5 100 100 1920 1080).1 ∧
     0 ≤ (clamp_crop 3 5 5 100 100 1920 1080).2.1 ∧
     (clamp_crop 3 5 5 100 100 1920 1080).1 +
       (clamp_crop 3 5 5 100 100 1920 1080).2.2.1 ≤ 1920 + 3 / (2 * 3) ∧
     (clamp_crop 3 5 5 100 100 1920 1080).2.1 +
       (clamp_crop 3 5 5 100 100 1920 1080).2.2.2 ≤ 1080 + 3 / (2 * 3)) :=
  ⟨⟨by norm_num, by norm_num, by norm_num⟩,
   clamp_containment_amended 3 5 5 100 100 1920 1080 (by norm_num)
     (by norm_num) (by norm_num)⟩

/-- Initial crop origin of the centering solver (wikisplice.py lines
380-381): the desired origin centered on the target, clamped into
[0, page - dimension] on each axis. -/
def solveInit (cx cy cw ch pageW pageH : ℚ) : ℚ × ℚ :=
  (max 0 (min (cx - cw / 2) (pageW - cw)),
   max 0 (min (cy - ch / 2) (pageH - ch)))

/-- The centering loop of wikisplice.py lines 383-389: up to the given fuel,
compute the residual toward the target center, stop when both components
are within eps, otherwise translate by the residual and re-clamp. -/
def solveIter (cx cy cw ch pageW pageH eps : ℚ) : ℕ → ℚ × ℚ → ℚ × ℚ
  | 0, s => s
  | n + 1, s =>
    if |cx - (s.1 + cw / 2)| ≤ eps ∧ |cy - (s.2 + ch / 2)| ≤ eps then s
    else
      solveIter cx cy cw ch pageW pageH eps n
        (max 0 (min (s.1 + (cx - (s.1 + cw / 2))) (pageW - cw)),
         max 0 (min (s.2 + (cy - (s.2 + ch / 2))) (pageH - ch)))

/-- Number of loop-body iterations the centering loop executes before it
breaks or exhausts its fuel. -/
def solveIterCount (cx cy cw ch pageW pageH eps : ℚ) : ℕ → ℚ × ℚ → ℕ
  | 0, _ => 0
  | n + 1, s =>
    if |cx - (s.1 + cw / 2)| ≤ eps ∧ |cy - (s.2 + ch / 2)| ≤ eps then 0
    else
      solveIterCount cx cy cw ch pageW pageH eps n
        (max 0 (min (s.1 + (cx - (s.1 + cw / 2))) (pageW - cw)),
         max 0 (min (s.2 + (cy - (s.2 + ch / 2))) (pageH - ch))) + 1

/-- The origin the centering loop ends on (lines 378-389). -/
def solveFinal (cx cy cw ch pageW pageH eps : ℚ) (maxIter : ℕ) : ℚ × ℚ :=
  solveIter cx cy cw ch pageW pageH eps maxIter (solveInit cx cy cw ch pageW pageH)

/-- The unclamped residual recorded after the loop (lines 391-392): target
center minus the center of the rectangle the loop ended on. -/
def solveResid (cx cy cw ch pageW pageH eps : ℚ) (maxIter : ℕ) : ℚ × ℚ :=
  (cx - ((solveFinal cx cy cw ch pageW pageH eps maxIter).1 + cw / 2),
   cy - ((solveFinal cx cy cw ch pageW pageH eps maxIter).2 + ch / 2))

lemma step_eq_init (cx cy cw ch pageW pageH : ℚ) (s : ℚ × ℚ) :
    (max 0 (min (s.1 + (cx - (s.1 + cw / 2))) (pageW - cw)),
     max 0 (min (s.2 + (cy - (s.2 + ch / 2))) (pageH - ch))) =
    solveInit cx cy cw ch pageW pageH := by
  unfold solveInit
  have h1 : s.1 + (cx - (s.1 + cw / 2)) = cx - cw / 2 := by ring
  have h2 : s.2 + (cy - (s.2 + ch / 2)) = cy - ch / 2 := by ring
  rw [h1, h2]

/-- The full-step translation followed by the clamp always lands back on the
clamped desired origin, so from solveInit the loop state never moves. -/
lemma solveIter_init (cx cy cw ch pageW pageH eps : ℚ) (n : ℕ) :
    solveIter cx cy cw ch pageW pageH eps n (solveInit cx cy cw ch pageW pageH) =
    solveInit cx cy cw ch pageW pageH := by
  induction n with
  | zero => rfl
  | succ n ih =>
    simp only [solveIter]
    split
    · rfl
    · rw [step_eq_init]
      exact ih

lemma solveIterCount_le (cx cy cw ch pageW pageH eps : ℚ) :
    ∀ n s, solveIterCount cx cy cw ch pageW pageH eps n s ≤ n := by
  intro n
  induction n with
  | zero =>
    intro s
    exact le_refl 0
  | succ n ih =>
    intro s
    simp only [solveIterCount]
    split
    · exact Nat.zero_le _
    · exact Nat.succ_le_succ (ih _)

/-- Clamping a desired coordinate into [0, M] minimizes the distance to the
desired coordinate over that interval. -/
lemma clamp_min_dist (d M x : ℚ) (hx0 : 0 ≤ x) (hxM : x ≤ M) :
    |d - max 0 (min d M)| ≤ |d - x| := by
  rcases le_or_lt d 0 with h | h
  · rw [min_eq_left (le_trans h (le_trans hx0 hxM)), max_eq_left h, sub_zero,
      abs_of_nonpos h, abs_of_nonpos (by linarith : d - x ≤ 0)]
    linarith
  · rcases le_or_lt d M with h2 | h2
    · rw [min_eq_left h2, max_eq_right h.le, sub_self, abs_zero]
      exact abs_nonneg _
    · rw [min_eq_right h2.le, max_eq_right (le_trans hx0 hxM),
        abs_of_nonneg (by linarith : (0:ℚ) ≤ d - M),
        abs_of_nonneg (by linarith [lt_of_le_of_lt hxM h2] : (0:ℚ) ≤ d - x)]
      linarith [lt_of_le_of_lt hxM h2]

/-- Claim C2: when the target center lies strictly inside
[cw/2, pageW - cw/2] x [ch/2, pageH - ch/2] (and the tolerance is
nonnegative, as every configured tolerance is), the centering loop reaches
a residual within eps on both axes within the iteration budget: the
clamped initial origin is already exactly centered, so the residual is 0. -/
theorem solver_interior_converges (cx cy cw ch pageW pageH eps : ℚ) (maxIter : ℕ)
    (hx1 : cw / 2 < cx) (hx2 : cx < pageW - cw / 2)
    (hy1 : ch / 2 < cy) (hy2 : cy < pageH - ch / 2)
    (heps : 0 ≤ eps) :
    |(solveResid cx cy cw ch pageW pageH eps maxIter).1| ≤ eps ∧
    |(solveResid cx cy cw ch pageW pageH eps maxIter).2| ≤ eps := by
  have hinit1 : (solveInit cx cy cw ch pageW pageH).1 = cx - cw / 2 := by
    unfold solveInit
    rw [min_eq_left (by linarith), max_eq_right (by linarith)]
  have hinit2 : (solveInit cx cy cw ch pageW pageH).2 = cy - ch / 2 := by
    unfold solveInit
    rw [min_eq_left (show cy - ch / 2 ≤ pageH - ch by linarith),
      max_eq_right (show (0:ℚ) ≤ cy - ch / 2 by linarith)]
  unfold solveResid solveFinal
  rw [solveIter_init, hinit1, hinit2]
  constructor
  · rw [show cx - (cx - cw / 2 + cw / 2) = 0 by ring, abs_zero]
    exact heps
  · rw [show cy - (cy - ch / 2 + ch / 2) = 0 by ring, abs_zero]
    exact heps

/-- Witness for claim C2: scenario 1 of the spec, target (960, 540), frame
600 x 337.5, page 1920 x 10000, eps = 0.05, budget 6. -/
theorem solver_interior_converges_witness :
    ((600:ℚ) / 2 < 960 ∧ (960:ℚ) < 1920 - 600 / 2 ∧
     (675/2:ℚ) / 2 < 540 ∧ (540:ℚ) < 10000 - (675/2) / 2 ∧ (0:ℚ) ≤ 1/20) ∧
    (|(solveResid 960 540 600 (675/2) 1920 10000 (1/20) 6).1| ≤ 1/20 ∧
     |(solveResid 960 540 600 (675/2) 1920 10000 (1/20) 6).2| ≤ 1/20) :=
  ⟨⟨by norm_num, by norm_num, by norm_num, by norm_num, by norm_num⟩,
   solver_interior_converges 960 540 600 (675/2) 1920 10000 (1/20) 6
     (by norm_num) (by norm_num) (by norm_num) (by norm_num) (by norm_num)⟩

/-- Claim C3: when the target center lies outside the reachable center
range, the loop still executes at most maxIterations iterations, and the
residual it hands back is best-achievable: no origin that keeps the crop
inside the page gets the crop center closer to the target on either axis. -/
theorem solver_boundary_best (cx cy cw ch pageW pageH eps : ℚ) (maxIter : ℕ)
    (_hout : cx < cw / 2 ∨ pageW - cw / 2 < cx ∨ cy < ch / 2 ∨ pageH - ch / 2 < cy) :
    solveIterCount cx cy cw ch pageW pageH eps maxIter
      (solveInit cx cy cw ch pageW pageH) ≤ maxIter ∧
    (∀ x1, 0 ≤ x1 → x1 + cw ≤ pageW →
      |(solveResid cx cy cw ch pageW pageH eps maxIter).1| ≤ |cx - (x1 + cw / 2)|) ∧
    (∀ y1, 0 ≤ y1 → y1 + ch ≤ pageH →
      |(solveResid cx cy cw ch pageW pageH eps maxIter).2| ≤ |cy - (y1 + ch / 2)|) := by
  refine ⟨solveIterCount_le cx cy cw ch pageW pageH eps maxIter _, ?_, ?_⟩
  · intro x1 h0 hM
    unfold solveResid solveFinal
    rw [solveIter_init]
    unfold solveInit
    rw [show cx - (max 0 (min (cx - cw / 2) (pageW - cw)) + cw / 2) =
        (cx - cw / 2) - max 0 (min (cx - cw / 2) (pageW - cw)) by ring,
      show cx - (x1 + cw / 2) = (cx - cw / 2) - x1 by ring]
    exact clamp_min_dist (cx - cw / 2) (pageW - cw) x1 h0 (by linarith)
  · intro y1 h0 hM
    unfold solveResid solveFinal
    rw [solveIter_init]
    unfold solveInit
    rw [show cy - (max 0 (min (cy - ch / 2) (pageH - ch)) + ch / 2) =
        (cy - ch / 2) - max 0 (min (cy - ch / 2) (pageH - ch)) by ring,
      show cy - (y1 + ch / 2) = (cy - ch / 2) - y1 by ring]
    exact clamp_min_dist (cy - ch / 2) (pageH - ch) y1 h0 (by linarith)

/-- Witness for claim C3: corner target (10, 10) with a 600 x 337.5 frame on
a 1920 x 1080 page; the conclusion is instantiated at the feasible origin
(0, 0). -/
theorem solver_boundary_best_witness :
    ((10:ℚ) < 600 / 2) ∧
    solveIterCount 10 10 600 (675/2) 1920 1080 (1/20) 6
      (solveInit 10 10 600 (675/2) 1920 1080) ≤ 6 ∧
    |(solveResid 10 10 600 (675/2) 1920 1080 (1/20) 6).1| ≤ |(10:ℚ) - (0 + 600 / 2)| ∧
    |(solveResid 10 10 600 (675/2) 1920 1080 (1/20) 6).2| ≤ |(10:ℚ) - (0 + (675/2) / 2)| := by
  have h := solver_boundary_best 10 10 600 (675/2) 1920 1080 (1/20) 6
    (Or.inl (by norm_num))
  exact ⟨by norm_num, h.1, h.2.1 0 le_rfl (by norm_num), h.2.2 0 le_rfl (by norm_num)⟩

/-- Claim C6: for target center (10, 10), crop 600 x 337.5, page 1920 x
1080, the loop clamp forces the crop origin to (0, 0), and the residual
recorded after the loop is exactly (-290, -158.75). -/
theorem scenario_corner_residual :
    solveFinal 10 10 600 (675/2) 1920 1080 (1/20) 6 = (0, 0) ∧
    solveResid 10 10 600 (675/2) 1920 1080 (1/20) 6 = (-290, -635/4) := by
  have hinit : solveInit 10 10 600 (675/2) 1920 1080 = (0, 0) := by
    unfold solveInit
    norm_num [min_def, max_def]
  have h : solveFinal 10 10 600 (675/2) 1920 1080 (1/20) 6 = (0, 0) := by
    unfold solveFinal
    rw [solveIter_init, hinit]
  refine ⟨h, ?_⟩
  unfold solveResid
  rw [h]
  norm_num [Prod.ext_iff]

/-- Desired crop width before quantization (wikisplice.py lines 342-346):
max(32, vw * (w_word / max(1, target_word_px))) scaled by the zoom factor
max(0.25, framing_zoom). -/
def cwPre (vw twp fz rw : ℚ) : ℚ :=
  max 32 (vw * (rw / max 1 twp)) * max (1/4) fz

/-- One record of the saved list (wikisplice.py lines 435-441): residual
offset in CSS pixels and the final crop dimensions. -/
structure Artifact where
  dx_css : ℚ
  dy_css : ℚ
  cw_css : ℚ
  ch_css : ℚ
deriving DecidableEq

/-- The clip rectangle handed to page.screenshot (wikisplice.py line 398). -/
structure Clip where
  x : ℚ
  y : ℚ
  w : ℚ
  h : ℚ
deriving DecidableEq

/-- Per-target capture pipeline of wikisplice.py lines 338-398 and 435-441
on the success path (pad_to_center disabled): compute target center and
quantized frame size, run the centering loop, record the residual, then
clamp-and-quantize the final rectangle into the clip. -/
def captureArtifact (vw vh dpr twp fz eps : ℚ) (maxIter : ℕ)
    (pageW pageH rx ry rw rh : ℚ) : Artifact × Clip :=
  let cx := rx + rw / 2
  let cy := ry + rh / 2
  let cw := q dpr (cwPre vw twp fz rw)
  let ch := q dpr (cwPre vw twp fz rw / (vw / vh))
  let p := solveFinal cx cy cw ch pageW pageH eps maxIter
  let c := clamp_crop dpr p.1 p.2 cw ch pageW pageH
  (⟨cx - (p.1 + cw / 2), cy - (p.2 + ch / 2), c.2.2.1, c.2.2.2⟩,
   ⟨c.1, c.2.1, c.2.2.1, c.2.2.2⟩)

/-- Per-target step including the visibility guard of wikisplice.py line
335: a target with non-positive measured width or height is skipped. -/
def processTarget (vw vh dpr twp fz eps : ℚ) (maxIter : ℕ)
    (pageW pageH rx ry rw rh : ℚ) : Option (Artifact × Clip) :=
  if rw ≤ 0 ∨ rh ≤ 0 then none
  else some (captureArtifact vw vh dpr twp fz eps maxIter pageW pageH rx ry rw rh)

/-- Claim C10: the desired crop width computed by lines 342-346 is at least
32 * max(0.25, framingZoom), and the divisor in the width formula is
max(1, target_word_px) ≥ 1 for every target_word_px, including zero and
negative values, so the computation never divides by zero. -/
theorem crop_width_floor_total (vw twp fz rw : ℚ) :
    (1:ℚ) ≤ max 1 twp ∧ 32 * max (1/4) fz ≤ cwPre vw twp fz rw := by
  refine ⟨le_max_left _ _, ?_⟩
  unfold cwPre
  apply mul_le_mul_of_nonneg_right (le_max_left _ _)
  exact le_trans (by norm_num) (le_max_left (1/4 : ℚ) fz)

/-- Concrete evaluation of the per-target pipeline for scenario 2 of the
spec: frame 1920 x 1080, dpr 3, target word rectangle (-83.75, 5, 187.5,
10), whose center is (10, 10), on a 1920 x 1080 page. -/
lemma processTarget_eval_corner :
    processTarget 1920 1080 3 600 1 (1/20) 6 1920 1080 (-(335/4)) 5 (375/2) 10 =
      some (⟨-290, -(476/3), 600, 1012/3⟩, ⟨1/3, 1/3, 600, 1012/3⟩) := by
  have hcw : q 3 (cwPre 1920 600 1 (375/2)) = 600 := by norm_num [cwPre, q, pyRound]
  have hch : q 3 (cwPre 1920 600 1 (375/2) / (1920 / 1080)) = 1012/3 := by
    norm_num [cwPre, q, pyRound]
  have hfinal : solveFinal 10 10 600 (1012/3) 1920 1080 (1/20) 6 = (0, 0) := by
    norm_num [solveFinal, solveIter, solveInit, min_def, max_def, abs, Prod.ext_iff]
  have hclamp : clamp_crop 3 0 0 600 (1012/3) 1920 1080 = (1/3, 1/3, 600, 1012/3) := by
    norm_num [clamp_crop, shiftOrigin, shrinkNeg, fitDim, q, pyRound, Prod.ext_iff]
  unfold processTarget
  rw [if_neg (by norm_num)]
  simp only [captureArtifact]
  rw [hcw, hch]
  norm_num
  rw [hfinal]
  norm_num [hclamp, Prod.ext_iff, Artifact.mk.injEq, Clip.mk.injEq]

/-- Claim C7: the recorded residual (dx_css, dy_css) equals the target
center minus the center of the rectangle handed to the raster capture.
This fails: the residual is computed before clamp_crop (lines 391-392 vs
line 394), and clamp_crop quantizes the origin with a 1/dpr floor.  For a
corner target the record holds dx_css = -290 while the captured clip has
center offset 10 - (1/3 + 300) = -871/3 ≠ -290. -/
theorem residual_reporter_cex :
    processTarget 1920 1080 3 600 1 (1/20) 6 1920 1080 (-(335/4)) 5 (375/2) 10 =
      some (⟨-290, -(476/3), 600, 1012/3⟩, ⟨1/3, 1/3, 600, 1012/3⟩) ∧
    (-290 : ℚ) ≠ 10 - (1/3 + 600 / 2) :=
  ⟨processTarget_eval_corner, by norm_num⟩

lemma shiftOrigin_of_nonneg (v : ℚ) (h : 0 ≤ v) : shiftOrigin v = v := by
  unfold shiftOrigin
  rw [if_neg (not_lt.mpr h)]

lemma shrinkNeg_of_nonneg (v w : ℚ) (h : 0 ≤ v) : shrinkNeg v w = w := by
  unfold shrinkNeg
  rw [if_neg (not_lt.mpr h)]

lemma fitDim_of_fit (o w bound : ℚ) (h : o + w ≤ bound) : fitDim o w bound = w := by
  unfold fitDim
  rw [if_neg (not_lt.mpr h)]

lemma solveFinal_eq_init (cx cy cw ch pageW pageH eps : ℚ) (maxIter : ℕ) :
    solveFinal cx cy cw ch pageW pageH eps maxIter = solveInit cx cy cw ch pageW pageH :=
  solveIter_init cx cy cw ch pageW pageH eps maxIter

lemma solveInit_fst_nonneg (cx cy cw ch pageW pageH : ℚ) :
    0 ≤ (solveInit cx cy cw ch pageW pageH).1 := by
  unfold solveInit
  exact le_max_left _ _

lemma solveInit_snd_nonneg (cx cy cw ch pageW pageH : ℚ) :
    0 ≤ (solveInit cx cy cw ch pageW pageH).2 := by
  unfold solveInit
  exact le_max_left _ _

lemma solveInit_fst_fit (cx cy cw ch pageW pageH : ℚ) (hw : cw ≤ pageW) :
    (solveInit cx cy cw ch pageW pageH).1 + cw ≤ pageW := by
  unfold solveInit
  have h : max 0 (min (cx - cw / 2) (pageW - cw)) ≤ pageW - cw :=
    max_le (by linarith) (min_le_right _ _)
  show max 0 (min (cx - cw / 2) (pageW - cw)) + cw ≤ pageW
  linarith

lemma solveInit_snd_fit (cx cy cw ch pageW pageH : ℚ) (hh : ch ≤ pageH) :
    (solveInit cx cy cw ch pageW pageH).2 + ch ≤ pageH := by
  unfold solveInit
  have h : max 0 (min (cy - ch / 2) (pageH - ch)) ≤ pageH - ch :=
    max_le (by linarith) (min_le_right _ _)
  show max 0 (min (cy - ch / 2) (pageH - ch)) + ch ≤ pageH
  linarith

/-- When the quantized frame fits past the loop origin, the clamp leaves
the (already quantized) dimension unchanged. -/
lemma clamp_dim_qfixed (dpr w0 o pageW : ℚ) (hd : 1 ≤ dpr) (ho : 0 ≤ o)
    (hfit : o + q dpr w0 ≤ pageW) :
    q dpr (max (1 / max 1 dpr) (fitDim (shiftOrigin o) (shrinkNeg o (q dpr w0)) pageW)) =
      q dpr w0 := by
  have hd0 : (0:ℚ) < dpr := lt_of_lt_of_le one_pos hd
  rw [shiftOrigin_of_nonneg o ho, shrinkNeg_of_nonneg o _ ho, fitDim_of_fit o _ pageW hfit,
    max_eq_right (by rw [max_eq_right hd]; exact q_min_le dpr w0), q_idem dpr w0 hd0]

lemma resid_shift_bound (dpr cx P cwq : ℚ) (hd0 : 0 < dpr) (hP : 0 ≤ P) :
    |(cx - (P + cwq / 2)) - (cx - (q dpr P + cwq / 2))| ≤ 1 / dpr := by
  have e : (cx - (P + cwq / 2)) - (cx - (q dpr P + cwq / 2)) = q dpr P - P := by ring
  rw [e]
  exact abs_q_sub_le dpr P hd0 hP

/-- Claim C7 (amended): the recorded residual equals the target center
minus the center of the rectangle the centering loop produced, i.e. the
rectangle before the final clamp_crop step; relative to the clip actually
handed to the raster capture it is off by the origin quantization shift,
at most one device pixel per axis, whenever the quantized frame fits
inside the page. -/
theorem residual_reporter_amended (vw vh dpr twp fz eps : ℚ) (maxIter : ℕ)
    (pageW pageH rx ry rw rh : ℚ)
    (hd : 1 ≤ dpr) (hw : 0 < rw) (hh : 0 < rh)
    (hfw : q dpr (cwPre vw twp fz rw) ≤ pageW)
    (hfh : q dpr (cwPre vw twp fz rw / (vw / vh)) ≤ pageH) :
    ∀ a c, processTarget vw vh dpr twp fz eps maxIter pageW pageH rx ry rw rh = some (a, c) →
      (a.dx_css = (rx + rw / 2) -
          ((solveFinal (rx + rw / 2) (ry + rh / 2) (q dpr (cwPre vw twp fz rw))
              (q dpr (cwPre vw twp fz rw / (vw / vh))) pageW pageH eps maxIter).1 +
            q dpr (cwPre vw twp fz rw) / 2) ∧
       a.dy_css = (ry + rh / 2) -
          ((solveFinal (rx + rw / 2) (ry + rh / 2) (q dpr (cwPre vw twp fz rw))
              (q dpr (cwPre vw twp fz rw / (vw / vh))) pageW pageH eps maxIter).2 +
            q dpr (cwPre vw twp fz rw / (vw / vh)) / 2)) ∧
      |a.dx_css - ((rx + rw / 2) - (c.x + c.w / 2))| ≤ 1 / dpr ∧
      |a.dy_css - ((ry + rh / 2) - (c.y + c.h / 2))| ≤ 1 / dpr := by
  intro a c h
  have hd0 : (0:ℚ) < dpr := lt_of_lt_of_le one_pos hd
  unfold processTarget at h
  rw [if_neg (by push_neg; exact ⟨hw, hh⟩)] at h
  have h2 := Option.some.inj h
  simp only [captureArtifact] at h2
  obtain ⟨ha, hc⟩ := Prod.mk.inj h2
  subst ha
  subst hc
  have hP := solveFinal_eq_init (rx + rw / 2) (ry + rh / 2) (q dpr (cwPre vw twp fz rw))
    (q dpr (cwPre vw twp fz rw / (vw / vh))) pageW pageH eps maxIter
  have hP1 : 0 ≤ (solveInit (rx + rw / 2) (ry + rh / 2) (q dpr (cwPre vw twp fz rw))
      (q dpr (cwPre vw twp fz rw / (vw / vh))) pageW pageH).1 :=
    solveInit_fst_nonneg _ _ _ _ _ _
  have hP2 : 0 ≤ (solveInit (rx + rw / 2) (ry + rh / 2) (q dpr (cwPre vw twp fz rw))
      (q dpr (cwPre vw twp fz rw / (vw / vh))) pageW pageH).2 :=
    solveInit_snd_nonneg _ _ _ _ _ _
  have hfit1 := solveInit_fst_fit (rx + rw / 2) (ry + rh / 2) (q dpr (cwPre vw twp fz rw))
    (q dpr (cwPre vw twp fz rw / (vw / vh))) pageW pageH hfw
  have hfit2 := solveInit_snd_fit (rx + rw / 2) (ry + rh / 2) (q dpr (cwPre vw twp fz rw))
    (q dpr (cwPre vw twp fz rw / (vw / vh))) pageW pageH hfh
  refine ⟨⟨rfl, rfl⟩, ?_, ?_⟩
  · dsimp only
    rw [hP]
    simp only [clamp_crop]
    rw [clamp_dim_qfixed dpr (cwPre vw twp fz rw) _ pageW hd hP1 hfit1,
      shiftOrigin_of_nonneg _ hP1]
    exact resid_shift_bound dpr (rx + rw / 2) _ _ hd0 hP1
  · dsimp only
    rw [hP]
    simp only [clamp_crop]
    rw [clamp_dim_qfixed dpr (cwPre vw twp fz rw / (vw / vh)) _ pageH hd hP2 hfit2,
      shiftOrigin_of_nonneg _ hP2]
    exact resid_shift_bound dpr (ry + rh / 2) _ _ hd0 hP2

/-- Witness for the amended claim C7 at the scenario-2 input. -/
theorem residual_reporter_amended_witness :
    ((1:ℚ) ≤ 3 ∧ (0:ℚ) < 375/2 ∧ (0:ℚ) < 10 ∧
     q 3 (cwPre 1920 600 1 (375/2)) ≤ 1920 ∧
     q 3 (cwPre 1920 600 1 (375/2) / (1920 / 1080)) ≤ 1080) ∧
    (((-290 : ℚ) = (-(335/4) + 375/2 / 2) -
        ((solveFinal (-(335/4) + 375/2 / 2) (5 + 10 / 2) (q 3 (cwPre 1920 600 1 (375/2)))
            (q 3 (cwPre 1920 600 1 (375/2) / (1920 / 1080))) 1920 1080 (1/20) 6).1 +
          q 3 (cwPre 1920 600 1 (375/2)) / 2) ∧
      (-(476/3) : ℚ) = (5 + 10 / 2) -
        ((solveFinal (-(335/4) + 375/2 / 2) (5 + 10 / 2) (q 3 (cwPre 1920 600 1 (375/2)))
            (q 3 (cwPre 1920 600 1 (375/2) / (1920 / 1080))) 1920 1080 (1/20) 6).2 +
          q 3 (cwPre 1920 600 1 (375/2) / (1920 / 1080)) / 2)) ∧
     |(-290 : ℚ) - ((-(335/4) + 375/2 / 2) - (1/3 + 600 / 2))| ≤ 1/3 ∧
     |(-(476/3) : ℚ) - ((5 + 10 / 2) - (1/3 + 1012/3 / 2))| ≤ 1/3) :=
  ⟨⟨by norm_num, by norm_num, by norm_num, by norm_num [cwPre, q, pyRound],
    by norm_num [cwPre, q, pyRound]⟩,
   residual_reporter_amended 1920 1080 3 600 1 (1/20) 6 1920 1080 (-(335/4)) 5 (375/2) 10
     (by norm_num) (by norm_num) (by norm_num) (by norm_num [cwPre, q, pyRound])
     (by norm_num [cwPre, q, pyRound]) ⟨-290, -(476/3), 600, 1012/3⟩
     ⟨1/3, 1/3, 600, 1012/3⟩ processTarget_eval_corner⟩

/-- DOM state relevant to the overlay fallback: whether the temporary
capture overlay element is in the page. -/
structure DomState where
  overlayPresent : Bool
deriving DecidableEq

/-- The overlay fallback path of wikisplice.py lines 404-430: the overlay
element is created (line 405), looked up (line 426), the element
screenshot is taken (line 429), and only after a successful screenshot is
the overlay removed (line 430).  A failed lookup raises at line 428 and a
failed screenshot raises at line 429; in both cases the exception
propagates before the removal statement runs, so the error value carries
the DOM state at the point the exception escapes. -/
def overlayFallback (handleFound shotSucceeds : Bool) : Except DomState DomState :=
  let created : DomState := ⟨true⟩
  if handleFound then
    if shotSucceeds then Except.ok ⟨false⟩
    else Except.error created
  else Except.error created

/-- Claim C8: the temporary overlay element is removed on every exit path
of the fallback, including when the element screenshot call itself fails.
The code violates this: the removal on line 430 runs only after a
successful screenshot (there is no try/finally), so a failing screenshot
leaves the overlay in the DOM, while the success path does remove it. -/
theorem overlay_leak_on_failure :
    overlayFallback true false = Except.error ⟨true⟩ ∧
    overlayFallback true true = Except.ok ⟨false⟩ :=
  ⟨rfl, rfl⟩

/-- Outcome of one per-target capture attempt inside the match loop:
skip (no rectangle or non-positive size, lines 335-336), ok (a record
appended, line 435), or abort (an exception the loop does not swallow:
the re-raise on line 433 or the RuntimeError on line 428). -/
inductive TOutcome where
  | skip : TOutcome
  | ok : TOutcome
  | abort : TOutcome
deriving DecidableEq

/-- The budget test of wikisplice.py lines 286 and 331: with a budget set,
the scan stops as soon as the saved count has reached it. -/
def budgetReached (budget : Option ℕ) (savedCount : ℕ) : Bool :=
  match budget with
  | none => false
  | some m => decide (m ≤ savedCount)

/-- The per-page match loop (lines 330-442): the budget is re-checked
before each match; skip continues, ok appends one record, abort raises
out of the loop.  Returns the new saved count and whether an exception
escaped. -/
def runPage (budget : Option ℕ) : ℕ → List TOutcome → ℕ × Bool
  | s, [] => (s, false)
  | s, t :: rest =>
    if budgetReached budget s then (s, false)
    else
      match t with
      | .skip => runPage budget s rest
      | .ok => runPage budget (s + 1) rest
      | .abort => (s, true)

/-- Result of a scan run: how many records were saved, whether an
exception ended the run, and how many input pages were never visited. -/
structure ScanResult where
  savedCount : ℕ
  aborted : Bool
  unvisited : ℕ
deriving DecidableEq

/-- The outer page loop (lines 285-442): the budget is checked before each
page (line 286); a page that fails to load is skipped and the loop
continues (line 292, modelled as none); otherwise the match loop runs and
an abort propagates out of the whole scan. -/
def runScan (budget : Option ℕ) : ℕ → List (Option (List TOutcome)) → ScanResult
  | s, [] => ⟨s, false, 0⟩
  | s, p :: rest =>
    if budgetReached budget s then ⟨s, false, (p :: rest).length⟩
    else
      match p with
      | none => runScan budget s rest
      | some ts =>
        if (runPage budget s ts).2 then ⟨(runPage budget s ts).1, true, rest.length⟩
        else runScan budget (runPage budget s ts).1 rest

lemma runPage_le (b : ℕ) : ∀ ts s, s ≤ b → (runPage (some b) s ts).1 ≤ b := by
  intro ts
  induction ts with
  | nil =>
    intro s hs
    exact hs
  | cons t rest ih =>
    intro s hs
    simp only [runPage]
    split_ifs with h
    · exact hs
    · have hlt : s < b := by
        by_contra hc
        exact h (by simpa [budgetReached] using Nat.le_of_not_lt hc)
      cases t with
      | skip => exact ih s hs
      | ok => exact ih (s + 1) (Nat.succ_le_of_lt hlt)
      | abort => exact hs

lemma runScan_le (b : ℕ) : ∀ pages s, s ≤ b →
    (runScan (some b) s pages).savedCount ≤ b := by
  intro pages
  induction pages with
  | nil =>
    intro s hs
    exact hs
  | cons p rest ih =>
    intro s hs
    simp only [runScan]
    split_ifs with h
    · exact hs
    · cases p with
      | none => exact ih s hs
      | some ts =>
        dsimp only
        split_ifs with h2
        · exact runPage_le b ts s hs
        · exact ih _ (runPage_le b ts s hs)

lemma runScan_complete (b : ℕ) : ∀ pages s,
    (runScan (some b) s pages).aborted = false →
    (runScan (some b) s pages).savedCount < b →
    (runScan (some b) s pages).unvisited = 0 := by
  intro pages
  induction pages with
  | nil =>
    intro s _ _
    rfl
  | cons p rest ih =>
    intro s hab hlt
    simp only [runScan] at hab hlt ⊢
    split_ifs at hab hlt ⊢ with h
    · exfalso
      have hble : b ≤ s := by simpa [budgetReached] using h
      exact absurd hlt (not_lt.mpr hble)
    · cases p with
      | none => exact ih s hab hlt
      | some ts =>
        dsimp only at hab hlt ⊢
        split_ifs at hab hlt ⊢ with h2
        exact ih _ hab hlt

/-- Claim C9: with a global budget the run never saves more than budget
records, and budget plus list exhaustion are claimed to be the only ways
the scan ends early.  The last part fails: a capture whose screenshot
raises a non-clip error re-raises (line 433) and ends the scan with the
budget unreached and pages unvisited. -/
theorem capture_budget_cex :
    (runScan (some 5) 0 [some [TOutcome.abort], some [TOutcome.ok]]).aborted = true ∧
    (runScan (some 5) 0 [some [TOutcome.abort], some [TOutcome.ok]]).savedCount < 5 ∧
    (runScan (some 5) 0 [some [TOutcome.abort], some [TOutcome.ok]]).unvisited = 1 :=
  ⟨by decide, by decide, by decide⟩

/-- Claim C9 (amended): with budget b the scan never saves more than b
records, both loops stopping at the budget check; and besides budget and
input-list exhaustion the only other way the scan ends early is a
propagating capture exception: a run that does not abort and ends below
budget has visited every page. -/
theorem capture_budget_amended (b : ℕ) (pages : List (Option (List TOutcome))) :
    (runScan (some b) 0 pages).savedCount ≤ b ∧
    ((runScan (some b) 0 pages).aborted = false →
      (runScan (some b) 0 pages).savedCount < b →
      (runScan (some b) 0 pages).unvisited = 0) :=
  ⟨runScan_le b pages 0 (Nat.zero_le b), runScan_complete b pages 0⟩

/-- Witness for the amended claim C9 on a concrete three-page run with one
failed page load and two saved records under budget 5. -/
theorem capture_budget_amended_witness :
    (runScan (some 5) 0
      [some [TOutcome.ok, TOutcome.skip], none, some [TOutcome.ok]]).savedCount ≤ 5 ∧
    (runScan (some 5) 0
      [some [TOutcome.ok, TOutcome.skip], none, some [TOutcome.ok]]).unvisited = 0 :=
  ⟨(capture_budget_amended 5 [some [TOutcome.ok, TOutcome.skip], none,
      some [TOutcome.ok]]).1,
   (capture_budget_amended 5 [some [TOutcome.ok, TOutcome.skip], none,
      some [TOutcome.ok]]).2 (by decide) (by decide)⟩

end Wikisplice
